import Mathlib

/-!
Verification of `hotkey.go` (package `hotkey`): the unbounded event channel
`newEventChan` and the `Hotkey` lifecycle (`New`, `Register`, `Unregister`,
`Keydown`, `Keyup`, `String`, the finalizer installed by `New`, and the
read-only table `KeyMap`).
-/

namespace GoHotkey

/-- Type `Event` from hotkey.go line 48: `type Event struct{}` — a zero-size marker. -/
structure Event where
deriving DecidableEq, Repr, Inhabited

/-- State of one event channel produced by `newEventChan` (hotkey.go lines
124-157).  The worker goroutine owns a slice `q` of pending events; `inClosed`
records whether the producer end `in` has been closed.  Events sent on `in`
are appended to `q`; the consumer end `out` yields the elements of `q` in
order; once `in` is closed the remaining queue is flushed to `out` and then
`out` is closed.  The element type is kept generic: the worker never inspects
the events it relays, so the model specializes to `Event` without change. -/
structure EC (α : Type) where
  q : List α
  inClosed : Bool
deriving DecidableEq, Repr

/-- A fresh channel: `newEventChan` starts its worker with `var q []Event`
and an open `in` end. -/
def EC.init {α : Type} : EC α := ⟨[], false⟩

/-- Sending on the producer end (`in <- e` relayed by the worker's
`q = append(q, e)`, hotkey.go lines 131-136 and 142-145).  A send on a closed
channel panics in Go, modelled by `none`. -/
def EC.send {α : Type} (s : EC α) (e : α) : Option (EC α) :=
  if s.inClosed then none else some { s with q := s.q ++ [e] }

/-- Outcome of one `receive` on the consumer end. -/
inductive RecvRes (α : Type) where
  | val (e : α)
  | closedSig
  | blocked
deriving DecidableEq, Repr

/-- Receiving on the consumer end `out`.  The worker hands over `q[0]`
(hotkey.go line 139); with an empty queue and a closed `in` the worker has
executed `close(out)` (lines 133 and 150), so the consumer observes the
closed-indication; with an empty queue on an open channel the consumer
suspends (`blocked`). -/
def EC.receive {α : Type} (s : EC α) : RecvRes α × EC α :=
  match s.q with
  | e :: rest => (RecvRes.val e, { s with q := rest })
  | [] => if s.inClosed then (RecvRes.closedSig, s) else (RecvRes.blocked, s)

/-- Closing the producer end (`close(in)`).  The worker then flushes the
remaining queue to `out` and closes `out` (hotkey.go lines 146-151); in this
state model that flush is the sequence of receives still possible from `q`.
Closing twice panics in Go, modelled by `none`. -/
def EC.close {α : Type} (s : EC α) : Option (EC α) :=
  if s.inClosed then none else some { s with inClosed := true }

/-- One operation of an interleaved producer/consumer schedule. -/
inductive Op (α : Type) where
  | send (e : α)
  | recv
  | cls
deriving DecidableEq, Repr

/-- Run a schedule of operations against a channel.  Returns the final
channel state, the list of events the producer successfully sent (accepted),
and the list of events the consumer received (delivered), each in schedule
order.  A send or close on an already-closed channel accepts nothing, and a
receive that finds the queue empty delivers nothing (a suspended receive is
modelled as completing at a later `recv` of the schedule). -/
def runOps {α : Type} : EC α → List (Op α) → EC α × List α × List α
  | s, [] => (s, [], [])
  | s, Op.send e :: ops =>
    match s.send e with
    | none => runOps s ops
    | some s' =>
      let r := runOps s' ops
      (r.1, e :: r.2.1, r.2.2)
  | s, Op.recv :: ops =>
    match s.receive with
    | (RecvRes.val e, s') =>
      let r := runOps s' ops
      (r.1, r.2.1, e :: r.2.2)
    | (RecvRes.closedSig, _) => runOps s ops
    | (RecvRes.blocked, _) => runOps s ops
  | s, Op.cls :: ops =>
    match s.close with
    | none => runOps s ops
    | some s' => runOps s' ops

/-- The schedule of claim C1: N sends, one close, then N receives. -/
def c1Ops {α : Type} (es : List α) : List (Op α) :=
  es.map Op.send ++ Op.cls :: List.replicate es.length Op.recv

/-- Modelled from the spec: the platform-specific key-code enumeration
(`Key`, defined in the platform files, not under src/) maps each name to a
distinct key identifier; here keys are natural-number codes. -/
abbrev Key := ℕ

/-- Modelled from the spec: the platform-specific modifier enumeration
(`Modifier`, defined in the platform files, not under src/). -/
abbrev Modifier := ℕ

/-- The lifecycle and channel-ownership state of the whole package: the heap
of event channels allocated by `newEventChan` (a channel's producer and
consumer handles are its index in this list), the exposed key-name lookup
table, and a count of backend-token releases performed by the platform
unregister call (used to state that a token is released exactly once). -/
structure World where
  chans : List (EC Event)
  keyMap : List (String × Key)
  released : ℕ
deriving DecidableEq

/-- Function `newEventChan` (hotkey.go lines 124-157) allocates a fresh channel and
returns its producer and consumer handles: here the index of the new channel
in the heap, for both ends. -/
def World.newEventChan (w : World) : (ℕ × ℕ) × World :=
  ((w.chans.length, w.chans.length), { w with chans := w.chans ++ [EC.init] })

/-- Closing a channel's producer end through its handle (`close(hk.keydownIn)`
etc.).  `none` models the Go panic on closing an already-closed channel, or a
dangling handle. -/
def World.closeChan (w : World) (i : ℕ) : Option World :=
  match w.chans.get? i with
  | none => none
  | some c =>
    match c.close with
    | none => none
    | some c' => some { w with chans := w.chans.set i c' }

/-- Structure `Hotkey` (hotkey.go lines 51-61): the embedded `platformHotkey` is
modelled by its backend token (absent while unregistered, per the spec's
external-interface contract), plus the modifier list, the key, and the four
channel-handle fields. -/
structure Hotkey where
  token : Option ℕ
  mods : List Modifier
  key : Key
  keydownIn : ℕ
  keydownOut : ℕ
  keyupIn : ℕ
  keyupOut : ℕ
deriving DecidableEq

/-- Constructor `New` (hotkey.go lines 64-85): allocates the two event channels and the
hotkey record, initially unregistered.  (The finalizer it installs is
modelled separately as `finalizeHotkey`.) -/
def New (w : World) (mods : List Modifier) (key : Key) : World × Hotkey :=
  let kd := w.newEventChan
  let ku := kd.2.newEventChan
  (ku.2,
    { token := none, mods := mods, key := key,
      keydownIn := kd.1.1, keydownOut := kd.1.2,
      keyupIn := ku.1.1, keyupOut := ku.1.2 })

/-- Modelled from the spec: the platform `register` call (platform files, not
under src/).  `resp` is the backend's answer for this invocation
(`backend.register(mods, key, ...) -> token | error`).  On error the state is
unchanged (no partial registration); on success the fresh token is stored,
and if a token was already held (re-registration) it is released first. -/
def registerPlatform (w : World) (hk : Hotkey) (resp : Except String ℕ) :
    Except String Unit × World × Hotkey :=
  match resp with
  | Except.error e => (Except.error e, w, hk)
  | Except.ok tok =>
    match hk.token with
    | none => (Except.ok (), w, { hk with token := some tok })
    | some _ =>
      (Except.ok (), { w with released := w.released + 1 },
       { hk with token := some tok })

/-- Method `Register` (hotkey.go line 90): `return hk.register()` — it delegates to
the platform call and touches nothing else. -/
def Register (w : World) (hk : Hotkey) (resp : Except String ℕ) :
    Except String Unit × World × Hotkey :=
  registerPlatform w hk resp

/-- Accessor `Keydown` (hotkey.go line 93): returns the current key-down consumer
handle. -/
def Keydown (hk : Hotkey) : ℕ := hk.keydownOut

/-- Accessor `Keyup` (hotkey.go line 96): returns the current key-up consumer
handle. -/
def Keyup (hk : Hotkey) : ℕ := hk.keyupOut

/-- Modelled from the spec: the platform `unregister` call (platform files,
not under src/), `backend.unregister(token) -> error | success`.  Without a
token it fails and does nothing (this is what makes the cleanup idempotent);
on backend error the token is kept and nothing changes; on success the token
is released exactly once and cleared. -/
def unregisterPlatform (w : World) (hk : Hotkey) (resp : Except String Unit) :
    Except String Unit × World × Hotkey :=
  match hk.token with
  | none => (Except.error "hotkey is not registered", w, hk)
  | some _ =>
    match resp with
    | Except.error e => (Except.error e, w, hk)
    | Except.ok _ =>
      (Except.ok (), { w with released := w.released + 1 },
       { hk with token := none })

/-- Method `Unregister` (hotkey.go lines 99-111): calls the platform unregister and
returns its error unchanged on failure; on success it closes both current
channels and replaces all four channel fields with two freshly allocated
channels.  The outer `Option` is `none` when a close panics. -/
def Unregister (w : World) (hk : Hotkey) (resp : Except String Unit) :
    Option (Except String Unit × World × Hotkey) :=
  match unregisterPlatform w hk resp with
  | (Except.error e, w1, hk1) => some (Except.error e, w1, hk1)
  | (Except.ok _, w1, hk1) =>
    match w1.closeChan hk1.keydownIn with
    | none => none
    | some w2 =>
      match w2.closeChan hk1.keyupIn with
      | none => none
      | some w3 =>
        let kd := w3.newEventChan
        let ku := kd.2.newEventChan
        some (Except.ok (), ku.2,
          { hk1 with
              keydownIn := kd.1.1, keydownOut := kd.1.2,
              keyupIn := ku.1.1, keyupOut := ku.1.2 })

/-- The finalizer installed by `New` (hotkey.go lines 78-83): it calls
`hk.unregister()` discarding any error, then closes both current channels'
producer ends.  `none` models a close panic. -/
def finalizeHotkey (w : World) (hk : Hotkey) (resp : Except String Unit) :
    Option World :=
  let r := unregisterPlatform w hk resp
  match (r.2.1).closeChan hk.keydownIn with
  | none => none
  | some w2 => w2.closeChan hk.keyupIn

/-- Modelled from the spec: the textual name of a key, as produced by the
`%v` formatting of the platform key-code type. -/
def keyName (k : Key) : String := toString k

/-- Modelled from the spec: the textual name of a modifier, as produced by
the `%v` formatting of the platform modifier type. -/
def modName (m : Modifier) : String := toString m

/-- Method `String` (hotkey.go lines 114-120): the key's name, then `"+"` and the
modifier's name for each modifier in the order supplied at construction. -/
def hotkeyString (hk : Hotkey) : String :=
  hk.mods.foldl (fun s m => s ++ ("+" ++ modName m)) (keyName hk.key)

/-- Modelled from the spec: the platform key-code constants referenced by the
`KeyMap` literal (hotkey.go lines 159-228) live in the platform files, not
under src/; each name denotes a distinct identifier, here 0, 1, 2, …. -/
def KeySpace : Key := 0

def Key1 : Key := 1

def Key2 : Key := 2

def Key3 : Key := 3

def Key4 : Key := 4

def Key5 : Key := 5

def Key6 : Key := 6

def Key7 : Key := 7

def Key8 : Key := 8

def Key9 : Key := 9

def Key0 : Key := 10

def KeyA : Key := 11

def KeyB : Key := 12

def KeyC : Key := 13

def KeyD : Key := 14

def KeyE : Key := 15

def KeyF : Key := 16

def KeyG : Key := 17

def KeyH : Key := 18

def KeyI : Key := 19

def KeyJ : Key := 20

def KeyK : Key := 21

def KeyL : Key := 22

def KeyM : Key := 23

def KeyN : Key := 24

def KeyO : Key := 25

def KeyP : Key := 26

def KeyQ : Key := 27

def KeyR : Key := 28

def KeyS : Key := 29

def KeyT : Key := 30

def KeyU : Key := 31

def KeyV : Key := 32

def KeyW : Key := 33

def KeyX : Key := 34

def KeyY : Key := 35

def KeyZ : Key := 36

def KeyReturn : Key := 37

def KeyEscape : Key := 38

def KeyDelete : Key := 39

def KeyTab : Key := 40

def KeyLeft : Key := 41

def KeyRight : Key := 42

def KeyUp : Key := 43

def KeyDown : Key := 44

def KeyF1 : Key := 45

def KeyF2 : Key := 46

def KeyF3 : Key := 47

def KeyF4 : Key := 48

def KeyF5 : Key := 49

def KeyF6 : Key := 50

def KeyF7 : Key := 51

def KeyF8 : Key := 52

def KeyF9 : Key := 53

def KeyF10 : Key := 54

def KeyF11 : Key := 55

def KeyF12 : Key := 56

def KeyF13 : Key := 57

def KeyF14 : Key := 58

def KeyF15 : Key := 59

def KeyF16 : Key := 60

def KeyF17 : Key := 61

def KeyF18 : Key := 62

def KeyF19 : Key := 63

def KeyF20 : Key := 64

/-- Table `KeyMap` (hotkey.go lines 159-228): the key-name lookup table, in source
order. -/
def KeyMap : List (String × Key) :=
  [("KeySpace", KeySpace),
   ("Key1", Key1), ("Key2", Key2), ("Key3", Key3), ("Key4", Key4),
   ("Key5", Key5), ("Key6", Key6), ("Key7", Key7), ("Key8", Key8),
   ("Key9", Key9), ("Key0", Key0),
   ("KeyA", KeyA), ("KeyB", KeyB), ("KeyC", KeyC), ("KeyD", KeyD),
   ("KeyE", KeyE), ("KeyF", KeyF), ("KeyG", KeyG), ("KeyH", KeyH),
   ("KeyI", KeyI), ("KeyJ", KeyJ), ("KeyK", KeyK), ("KeyL", KeyL),
   ("KeyM", KeyM), ("KeyN", KeyN), ("KeyO", KeyO), ("KeyP", KeyP),
   ("KeyQ", KeyQ), ("KeyR", KeyR), ("KeyS", KeyS), ("KeyT", KeyT),
   ("KeyU", KeyU), ("KeyV", KeyV), ("KeyW", KeyW), ("KeyX", KeyX),
   ("KeyY", KeyY), ("KeyZ", KeyZ),
   ("KeyReturn", KeyReturn), ("KeyEscape", KeyEscape),
   ("KeyDelete", KeyDelete), ("KeyTab", KeyTab),
   ("KeyLeft", KeyLeft), ("KeyRight", KeyRight),
   ("KeyUp", KeyUp), ("KeyDown", KeyDown),
   ("KeyF1", KeyF1), ("KeyF2", KeyF2), ("KeyF3", KeyF3), ("KeyF4", KeyF4),
   ("KeyF5", KeyF5), ("KeyF6", KeyF6), ("KeyF7", KeyF7), ("KeyF8", KeyF8),
   ("KeyF9", KeyF9), ("KeyF10", KeyF10), ("KeyF11", KeyF11),
   ("KeyF12", KeyF12), ("KeyF13", KeyF13), ("KeyF14", KeyF14),
   ("KeyF15", KeyF15), ("KeyF16", KeyF16), ("KeyF17", KeyF17),
   ("KeyF18", KeyF18), ("KeyF19", KeyF19), ("KeyF20", KeyF20)]

/-- The state of the package at startup: no channels allocated, the lookup
table as initialized, no backend token ever released. -/
def World.start : World := ⟨[], KeyMap, 0⟩

/-- Looking a key name up in the world's table. -/
def World.lookupKey (w : World) (s : String) : Option Key :=
  (w.keyMap.find? (fun p => p.1 == s)).map (fun p => p.2)

theorem runOps_invariant {α : Type} (ops : List (Op α)) :
    ∀ s : EC α, s.q ++ (runOps s ops).2.1
      = (runOps s ops).2.2 ++ (runOps s ops).1.q := by
  induction ops with
  | nil => intro s; simp [runOps]
  | cons op ops ih =>
    intro s
    cases op with
    | send e =>
      by_cases h : s.inClosed
      · simp [runOps, EC.send, h, ih s]
      · have := ih { s with q := s.q ++ [e] }
        simp [runOps, EC.send, h] at this ⊢
        simpa using this
    | recv =>
      match hq : s.q with
      | [] =>
        by_cases h : s.inClosed <;>
          simpa [runOps, EC.receive, hq, h] using ih s
      | e :: rest =>
        have := ih { s with q := rest }
        simp [runOps, EC.receive, hq] at this ⊢
        simpa using this
    | cls =>
      by_cases h : s.inClosed
      · simp [runOps, EC.close, h, ih s]
      · have := ih { s with inClosed := true }
        simp [runOps, EC.close, h] at this ⊢
        simpa using this

theorem runOps_sends {α : Type} (es : List α) :
    ∀ (s : EC α) (rest : List (Op α)), s.inClosed = false →
      runOps s (es.map Op.send ++ rest)
        = ((runOps { s with q := s.q ++ es } rest).1,
           es ++ (runOps { s with q := s.q ++ es } rest).2.1,
           (runOps { s with q := s.q ++ es } rest).2.2) := by
  induction es with
  | nil => intro s rest h; simp
  | cons e es ih =>
    intro s rest h
    have := ih { s with q := s.q ++ [e] } rest (by simpa using h)
    simp [runOps, EC.send, h] at this ⊢
    simp [this, List.append_assoc]

theorem runOps_drain {α : Type} (es : List α) :
    runOps (⟨es, true⟩ : EC α) (List.replicate es.length Op.recv)
      = (⟨[], true⟩, [], es) := by
  induction es with
  | nil => simp [runOps]
  | cons e es ih => simp [List.replicate_succ, runOps, EC.receive, ih]

/-- Claim C1: every schedule of N sends followed by close, with the consumer
receiving only after the close, accepts exactly the N events, delivers all of
them in the order sent, and leaves the channel closed with an empty queue,
after which a further receive yields the closed-indication: close never
discards buffered events.  The case N = 0 is the empty list. -/
theorem send_close_then_drain {α : Type} (es : List α) :
    (runOps EC.init (c1Ops es)).2.1 = es ∧
    (runOps EC.init (c1Ops es)).2.2 = es ∧
    (runOps EC.init (c1Ops es)).1 = (⟨[], true⟩ : EC α) ∧
    ((runOps EC.init (c1Ops es)).1.receive).1 = RecvRes.closedSig := by
  have hs := runOps_sends es (EC.init : EC α)
    (Op.cls :: List.replicate es.length Op.recv) rfl
  have hrun : runOps (EC.init : EC α) (c1Ops es) = (⟨[], true⟩, es, es) := by
    rw [c1Ops, hs]
    have hstep : runOps (⟨es, false⟩ : EC α)
          (Op.cls :: List.replicate es.length Op.recv)
        = runOps (⟨es, true⟩ : EC α) (List.replicate es.length Op.recv) := by
      simp [runOps, EC.close]
    simp [EC.init, hstep, runOps_drain es]
  refine ⟨by simp [hrun], by simp [hrun], by simp [hrun], ?_⟩
  simp [hrun, EC.receive]

/-- Claim C2: for every interleaving of sends, receives and closes, the delivered
events are exactly the accepted events in the order accepted, up to the part
still sitting in the queue: accepted = delivered ++ remaining queue, so the
consumer observes events in FIFO order regardless of timing. -/
theorem fifo_order {α : Type} (ops : List (Op α)) :
    (runOps (EC.init : EC α) ops).2.1
      = (runOps (EC.init : EC α) ops).2.2 ++ (runOps (EC.init : EC α) ops).1.q := by
  have := runOps_invariant ops (EC.init : EC α)
  simpa [EC.init] using this

/-- Claim C3: in every state of the channel that is not closed — whatever the
queue contents, however many events are pending unread — a send is accepted
immediately and its whole effect is to append to the queue; it never waits
on the consumer. -/
theorem send_nonblocking {α : Type} (s : EC α) (e : α)
    (h : s.inClosed = false) :
    s.send e = some { s with q := s.q ++ [e] } := by
  simp [EC.send, h]

theorem send_nonblocking_witness :
    (⟨[1, 2, 3], false⟩ : EC ℕ).send 4 = some ⟨[1, 2, 3, 4], false⟩ :=
  send_nonblocking ⟨[1, 2, 3], false⟩ 4 rfl


/-- Claim C5: calling `Register` on an already-registered hotkey with a successful
backend answer succeeds, releases the old backend token and stores the fresh
one, and leaves all four channel fields and the whole channel heap unchanged,
so handles obtained earlier stay valid and queued events are kept. -/
theorem reregister_keeps_channels (w : World) (hk : Hotkey) (t tok : ℕ)
    (h : hk.token = some t) :
    (Register w hk (Except.ok tok)).1 = Except.ok () ∧
    (Register w hk (Except.ok tok)).2.2.keydownIn = hk.keydownIn ∧
    (Register w hk (Except.ok tok)).2.2.keydownOut = hk.keydownOut ∧
    (Register w hk (Except.ok tok)).2.2.keyupIn = hk.keyupIn ∧
    (Register w hk (Except.ok tok)).2.2.keyupOut = hk.keyupOut ∧
    (Register w hk (Except.ok tok)).2.2.token = some tok ∧
    (Register w hk (Except.ok tok)).2.1.chans = w.chans ∧
    (Register w hk (Except.ok tok)).2.1.released = w.released + 1 := by
  simp [Register, registerPlatform, h]

theorem reregister_keeps_channels_witness :
    (Register ⟨[EC.init, EC.init], KeyMap, 0⟩
        ⟨some 5, [1], KeyA, 0, 0, 1, 1⟩ (Except.ok 9)).1 = Except.ok () ∧
    (Register ⟨[EC.init, EC.init], KeyMap, 0⟩
        ⟨some 5, [1], KeyA, 0, 0, 1, 1⟩ (Except.ok 9)).2.2.keydownIn = 0 ∧
    (Register ⟨[EC.init, EC.init], KeyMap, 0⟩
        ⟨some 5, [1], KeyA, 0, 0, 1, 1⟩ (Except.ok 9)).2.2.keydownOut = 0 ∧
    (Register ⟨[EC.init, EC.init], KeyMap, 0⟩
        ⟨some 5, [1], KeyA, 0, 0, 1, 1⟩ (Except.ok 9)).2.2.keyupIn = 1 ∧
    (Register ⟨[EC.init, EC.init], KeyMap, 0⟩
        ⟨some 5, [1], KeyA, 0, 0, 1, 1⟩ (Except.ok 9)).2.2.keyupOut = 1 ∧
    (Register ⟨[EC.init, EC.init], KeyMap, 0⟩
        ⟨some 5, [1], KeyA, 0, 0, 1, 1⟩ (Except.ok 9)).2.2.token = some 9 ∧
    (Register ⟨[EC.init, EC.init], KeyMap, 0⟩
        ⟨some 5, [1], KeyA, 0, 0, 1, 1⟩ (Except.ok 9)).2.1.chans
      = [EC.init, EC.init] ∧
    (Register ⟨[EC.init, EC.init], KeyMap, 0⟩
        ⟨some 5, [1], KeyA, 0, 0, 1, 1⟩ (Except.ok 9)).2.1.released = 0 + 1 :=
  reregister_keeps_channels ⟨[EC.init, EC.init], KeyMap, 0⟩
    ⟨some 5, [1], KeyA, 0, 0, 1, 1⟩ 5 9 rfl

/-- Claim C7: when the hotkey is unregistered and the backend refuses the
registration, `Register` returns exactly that error and leaves the world and
every field of the hotkey untouched: no partial registration remains. -/
theorem register_failure_unchanged (w : World) (hk : Hotkey) (msg : String)
    (_h : hk.token = none) :
    Register w hk (Except.error msg) = (Except.error msg, w, hk) := by
  simp [Register, registerPlatform]

theorem register_failure_unchanged_witness :
    Register World.start ⟨none, [], KeyS, 0, 0, 1, 1⟩ (Except.error "taken")
      = (Except.error "taken", World.start, ⟨none, [], KeyS, 0, 0, 1, 1⟩) :=
  register_failure_unchanged World.start ⟨none, [], KeyS, 0, 0, 1, 1⟩ "taken" rfl

/-- Claim C8: when the backend unregistration call fails, `Unregister` returns that
error and changes nothing: no channel is closed, the channel heap and all
four channel fields keep their values, so previously obtained handles stay
open and usable. -/
theorem unregister_failure_unchanged (w : World) (hk : Hotkey) (msg : String)
    (t : ℕ) (h : hk.token = some t) :
    Unregister w hk (Except.error msg) = some (Except.error msg, w, hk) := by
  simp [Unregister, unregisterPlatform, h]

theorem unregister_failure_unchanged_witness :
    Unregister ⟨[EC.init, EC.init], KeyMap, 0⟩ ⟨some 3, [], KeyA, 0, 0, 1, 1⟩
        (Except.error "backend busy")
      = some (Except.error "backend busy", ⟨[EC.init, EC.init], KeyMap, 0⟩,
          ⟨some 3, [], KeyA, 0, 0, 1, 1⟩) :=
  unregister_failure_unchanged ⟨[EC.init, EC.init], KeyMap, 0⟩
    ⟨some 3, [], KeyA, 0, 0, 1, 1⟩ "backend busy" 3 rfl

theorem string_join_cons (a : String) (l : List String) :
    String.join (a :: l) = a ++ String.join l := by
  apply String.ext
  simp [String.join_eq]

theorem foldl_append_string (f : Modifier → String) (l : List Modifier) :
    ∀ s : String, l.foldl (fun s m => s ++ f m) s
      = s ++ String.join (l.map f) := by
  induction l with
  | nil => intro s; simp [String.join]
  | cons m l ih =>
    intro s
    rw [List.map_cons, string_join_cons, List.foldl_cons, ih,
      String.append_assoc]

/-- Claim C9: the textual representation is the key's name followed by one `"+"`
and the modifier's name for each modifier, in exactly the order the modifiers
were supplied at construction; with no modifiers it is the key name alone. -/
theorem string_format (hk : Hotkey) :
    hotkeyString hk
      = keyName hk.key ++ String.join (hk.mods.map (fun m => "+" ++ modName m))
    ∧ (hk.mods = [] → hotkeyString hk = keyName hk.key) := by
  constructor
  · simpa [hotkeyString] using
      foldl_append_string (fun m => "+" ++ modName m) hk.mods (keyName hk.key)
  · intro hm
    simp [hotkeyString, hm]

theorem string_format_witness :
    hotkeyString ⟨none, [], Key1, 0, 0, 1, 1⟩ = keyName Key1 :=
  (string_format ⟨none, [], Key1, 0, 0, 1, 1⟩).2 rfl

theorem getElem?_append_len {α : Type} (l : List α) (b : α) :
    (l ++ [b])[l.length]? = some b := by
  rw [List.getElem?_append_right (le_refl _)]
  simp

theorem getElem?_append2_left {α : Type} (l : List α) (a b : α) (i : ℕ)
    (h : i < l.length) : ((l ++ [a]) ++ [b])[i]? = l[i]? := by
  rw [List.getElem?_append_left (by simp; omega), List.getElem?_append_left h]

theorem getElem?_append2_mid {α : Type} (l : List α) (a b : α) :
    ((l ++ [a]) ++ [b])[l.length]? = some a := by
  rw [List.getElem?_append_left (by simp), getElem?_append_len]

/-- Claim C4: when `Unregister` succeeds on a hotkey whose handles reference
distinct live channels, the new consumer handles returned by `Keydown` and
`Keyup` are distinct from the old ones (and from each other), the two old
channels are closed with their buffered events intact, the two replacement
channels are brand-new empty open channels, and draining an old handle yields
exactly the events buffered before the `Unregister` and then the
closed-indication. -/
theorem unregister_resets_channels (w w' : World) (hk hk' : Hotkey)
    (resp : Except String Unit) (ckd cku : EC Event)
    (hdo : hk.keydownOut = hk.keydownIn) (huo : hk.keyupOut = hk.keyupIn)
    (hne : hk.keydownIn ≠ hk.keyupIn)
    (hkd : w.chans.get? hk.keydownIn = some ckd)
    (hku : w.chans.get? hk.keyupIn = some cku)
    (h : Unregister w hk resp = some (Except.ok (), w', hk')) :
    Keydown hk' ≠ Keydown hk ∧ Keyup hk' ≠ Keyup hk ∧
    Keydown hk' ≠ Keyup hk' ∧
    w'.chans.get? (Keydown hk) = some ⟨ckd.q, true⟩ ∧
    w'.chans.get? (Keyup hk) = some ⟨cku.q, true⟩ ∧
    w'.chans.get? (Keydown hk') = some EC.init ∧
    w'.chans.get? (Keyup hk') = some EC.init ∧
    runOps (⟨ckd.q, true⟩ : EC Event) (List.replicate ckd.q.length Op.recv)
      = (⟨[], true⟩, [], ckd.q) ∧
    ((⟨[], true⟩ : EC Event).receive).1 = RecvRes.closedSig := by
  have hkd' : w.chans[hk.keydownIn]? = some ckd := by
    simpa [List.get?_eq_getElem?] using hkd
  have hku' : w.chans[hk.keyupIn]? = some cku := by
    simpa [List.get?_eq_getElem?] using hku
  have hkdlt : hk.keydownIn < w.chans.length := (List.getElem?_eq_some.mp hkd').1
  have hkult : hk.keyupIn < w.chans.length := (List.getElem?_eq_some.mp hku').1
  cases htok : hk.token with
  | none => simp [Unregister, unregisterPlatform, htok] at h
  | some t =>
    cases resp with
    | error e => simp [Unregister, unregisterPlatform, htok] at h
    | ok u =>
      cases hckd : ckd.inClosed with
      | true =>
        simp [Unregister, unregisterPlatform, htok, World.closeChan, hkd',
          EC.close, hckd] at h
      | false =>
        cases hcku : cku.inClosed with
        | true =>
          simp [Unregister, unregisterPlatform, htok, World.closeChan, hkd',
            hku', EC.close, hckd, hcku, List.getElem?_set_ne hne] at h
        | false =>
          simp only [Unregister, unregisterPlatform, htok, World.closeChan,
            List.get?_eq_getElem?, hkd', hku', EC.close, hckd, hcku,
            World.newEventChan, List.getElem?_set_ne hne, Bool.false_eq_true,
            if_false, Option.some.injEq, Prod.mk.injEq, true_and] at h
          obtain ⟨hw, hhk⟩ := h
          subst hw
          subst hhk
          have h4 : hk.keydownIn
              < ((w.chans.set hk.keydownIn ⟨ckd.q, true⟩).set hk.keyupIn
                  ⟨cku.q, true⟩).length := by
            simpa [List.length_set] using hkdlt
          have h5 : hk.keyupIn
              < ((w.chans.set hk.keydownIn ⟨ckd.q, true⟩).set hk.keyupIn
                  ⟨cku.q, true⟩).length := by
            simpa [List.length_set] using hkult
          have h5' : hk.keyupIn
              < (w.chans.set hk.keydownIn ⟨ckd.q, true⟩).length := by
            simpa [List.length_set] using hkult
          simp only [Keydown, Keyup, hdo, huo, List.get?_eq_getElem?]
          refine ⟨?_, ?_, ?_, ?_, ?_, ?_, ?_, runOps_drain ckd.q, rfl⟩
          · simp only [List.length_set]
            omega
          · simp only [List.length_append, List.length_set,
              List.length_singleton]
            omega
          · simp only [List.length_append, List.length_set,
              List.length_singleton]
            omega
          · rw [getElem?_append2_left _ _ _ _ h4,
              List.getElem?_set_ne (Ne.symm hne),
              List.getElem?_set_self hkdlt]
          · rw [getElem?_append2_left _ _ _ _ h5,
              List.getElem?_set_self h5']
          · exact getElem?_append2_mid _ _ _
          · exact getElem?_append_len _ _

theorem unregister_ok_spec (w : World) (hk : Hotkey) (t : ℕ)
    (ckd cku : EC Event)
    (hne : hk.keydownIn ≠ hk.keyupIn)
    (hkd : w.chans[hk.keydownIn]? = some ckd) (hckd : ckd.inClosed = false)
    (hku : w.chans[hk.keyupIn]? = some cku) (hcku : cku.inClosed = false)
    (htok : hk.token = some t) :
    Unregister w hk (Except.ok ()) = some (Except.ok (),
      ⟨((w.chans.set hk.keydownIn ⟨ckd.q, true⟩).set hk.keyupIn ⟨cku.q, true⟩)
          ++ [EC.init] ++ [EC.init], w.keyMap, w.released + 1⟩,
      ⟨none, hk.mods, hk.key, w.chans.length, w.chans.length,
        w.chans.length + 1, w.chans.length + 1⟩) := by
  simp only [Unregister, unregisterPlatform, htok, World.closeChan,
    List.get?_eq_getElem?, hkd, hku, EC.close, hckd, hcku,
    World.newEventChan, List.getElem?_set_ne hne, Bool.false_eq_true,
    if_false, Option.some.injEq, Prod.mk.injEq, true_and]
  simp [List.length_set]

/-- Claim C6: the finalizer installed by `New` is the unregister-and-close safety
net.  On a hotkey still registered (live distinct open channels, token held)
it runs without a panic, releases the backend token exactly once, and closes
both current channels with their buffered events intact; and it is
idempotent: after the application already ran a successful `Unregister`, the
finalizer still runs without any double-close, releases no further token
(the total stays at one release), and merely closes the two replacement
channels. -/
theorem finalizer_cleanup (w : World) (hk : Hotkey) (t : ℕ)
    (ckd cku : EC Event)
    (hne : hk.keydownIn ≠ hk.keyupIn)
    (hkd : w.chans.get? hk.keydownIn = some ckd) (hckd : ckd.inClosed = false)
    (hku : w.chans.get? hk.keyupIn = some cku) (hcku : cku.inClosed = false)
    (htok : hk.token = some t) :
    (∃ w2, finalizeHotkey w hk (Except.ok ()) = some w2
       ∧ w2.released = w.released + 1
       ∧ w2.chans.get? hk.keydownIn = some ⟨ckd.q, true⟩
       ∧ w2.chans.get? hk.keyupIn = some ⟨cku.q, true⟩)
    ∧ (∀ w' hk' r',
        Unregister w hk (Except.ok ()) = some (Except.ok (), w', hk') →
        ∃ w3, finalizeHotkey w' hk' r' = some w3
          ∧ w3.released = w.released + 1
          ∧ w3.chans.get? hk'.keydownIn = some ⟨[], true⟩
          ∧ w3.chans.get? hk'.keyupIn = some ⟨[], true⟩) := by
  have hkd' : w.chans[hk.keydownIn]? = some ckd := by
    simpa [List.get?_eq_getElem?] using hkd
  have hku' : w.chans[hk.keyupIn]? = some cku := by
    simpa [List.get?_eq_getElem?] using hku
  have hkdlt : hk.keydownIn < w.chans.length := (List.getElem?_eq_some.mp hkd').1
  have hkult : hk.keyupIn < w.chans.length := (List.getElem?_eq_some.mp hku').1
  constructor
  · have hfin : finalizeHotkey w hk (Except.ok ())
        = some ⟨(w.chans.set hk.keydownIn ⟨ckd.q, true⟩).set hk.keyupIn
            ⟨cku.q, true⟩, w.keyMap, w.released + 1⟩ := by
      simp only [finalizeHotkey, unregisterPlatform, htok,
        World.closeChan, List.get?_eq_getElem?, hkd', EC.close, hckd,
        Bool.false_eq_true, if_false, List.getElem?_set_ne hne, hku', hcku]
    refine ⟨_, hfin, rfl, ?_, ?_⟩
    · simp only [List.get?_eq_getElem?]
      rw [List.getElem?_set_ne (Ne.symm hne), List.getElem?_set_self hkdlt]
    · simp only [List.get?_eq_getElem?]
      rw [List.getElem?_set_self]
      simpa [List.length_set] using hkult
  · intro w' hk' r' h
    rw [unregister_ok_spec w hk t ckd cku hne hkd' hckd hku' hcku htok] at h
    simp only [Option.some.injEq, Prod.mk.injEq, true_and] at h
    obtain ⟨hw, hhk⟩ := h
    subst hw
    subst hhk
    have hx : ((w.chans.set hk.keydownIn ⟨ckd.q, true⟩).set hk.keyupIn
        ⟨cku.q, true⟩).length = w.chans.length := by
      simp [List.length_set]
    have e1 : (((w.chans.set hk.keydownIn ⟨ckd.q, true⟩).set hk.keyupIn
          ⟨cku.q, true⟩) ++ [EC.init] ++ [EC.init])[w.chans.length]?
        = some EC.init := by
      rw [← hx]
      exact getElem?_append2_mid _ _ _
    have hx1 : (((w.chans.set hk.keydownIn ⟨ckd.q, true⟩).set hk.keyupIn
        ⟨cku.q, true⟩) ++ [EC.init]).length = w.chans.length + 1 := by
      simp [List.length_set]
    have e2 : ((((w.chans.set hk.keydownIn ⟨ckd.q, true⟩).set hk.keyupIn
            ⟨cku.q, true⟩) ++ [EC.init] ++ [EC.init]).set w.chans.length
            ⟨[], true⟩)[w.chans.length + 1]? = some EC.init := by
      rw [List.getElem?_set_ne (by omega), ← hx1]
      exact getElem?_append_len _ _
    simp only [EC.init] at e1 e2
    have hfin2 : finalizeHotkey
          ⟨((w.chans.set hk.keydownIn ⟨ckd.q, true⟩).set hk.keyupIn
              ⟨cku.q, true⟩) ++ [EC.init] ++ [EC.init], w.keyMap,
            w.released + 1⟩
          ⟨none, hk.mods, hk.key, w.chans.length, w.chans.length,
            w.chans.length + 1, w.chans.length + 1⟩ r'
        = some ⟨((((w.chans.set hk.keydownIn ⟨ckd.q, true⟩).set hk.keyupIn
              ⟨cku.q, true⟩) ++ [EC.init] ++ [EC.init]).set w.chans.length
              ⟨[], true⟩).set (w.chans.length + 1) ⟨[], true⟩, w.keyMap,
            w.released + 1⟩ := by
      simp only [finalizeHotkey, unregisterPlatform, World.closeChan,
        List.get?_eq_getElem?, e1, EC.close, EC.init, Bool.false_eq_true,
        if_false, e2]
    refine ⟨_, hfin2, rfl, ?_, ?_⟩
    · simp only [List.get?_eq_getElem?]
      rw [List.getElem?_set_ne (by omega), List.getElem?_set_self]
      simp [List.length_set]
    · simp only [List.get?_eq_getElem?]
      rw [List.getElem?_set_self]
      simp [List.length_set]

theorem unregister_resets_channels_witness :
    Keydown (⟨none, [], KeyA, 2, 2, 3, 3⟩ : Hotkey)
      ≠ Keydown ⟨some 7, [], KeyA, 0, 0, 1, 1⟩ :=
  (unregister_resets_channels
    ⟨[⟨[Event.mk], false⟩, ⟨[], false⟩], KeyMap, 0⟩
    ⟨[⟨[Event.mk], true⟩, ⟨[], true⟩, EC.init, EC.init], KeyMap, 1⟩
    ⟨some 7, [], KeyA, 0, 0, 1, 1⟩ ⟨none, [], KeyA, 2, 2, 3, 3⟩
    (Except.ok ()) ⟨[Event.mk], false⟩ ⟨[], false⟩
    rfl rfl (by decide) rfl rfl rfl).1

theorem finalizer_cleanup_witness :
    ∃ w2, finalizeHotkey ⟨[⟨[Event.mk], false⟩, ⟨[], false⟩], KeyMap, 0⟩
        ⟨some 7, [], KeyA, 0, 0, 1, 1⟩ (Except.ok ()) = some w2
      ∧ w2.released = 0 + 1
      ∧ w2.chans.get? 0 = some ⟨[Event.mk], true⟩
      ∧ w2.chans.get? 1 = some ⟨[], true⟩ :=
  (finalizer_cleanup ⟨[⟨[Event.mk], false⟩, ⟨[], false⟩], KeyMap, 0⟩
    ⟨some 7, [], KeyA, 0, 0, 1, 1⟩ 7 ⟨[Event.mk], false⟩ ⟨[], false⟩
    (by decide) rfl rfl rfl rfl rfl).1

theorem closeChan_keyMap {w : World} {i : ℕ} {w' : World}
    (h : w.closeChan i = some w') : w'.keyMap = w.keyMap := by
  unfold World.closeChan at h
  cases hg : w.chans.get? i with
  | none => rw [hg] at h; cases h
  | some c =>
    rw [hg] at h
    cases hc : c.inClosed with
    | true => simp [EC.close, hc] at h
    | false =>
      simp only [EC.close, hc, Bool.false_eq_true, if_false,
        Option.some.injEq] at h
      subst h
      rfl

theorem unregisterPlatform_keyMap (w : World) (hk : Hotkey)
    (r : Except String Unit) :
    (unregisterPlatform w hk r).2.1.keyMap = w.keyMap := by
  rcases htok : hk.token with - | t <;> rcases r with e | u <;>
    simp [unregisterPlatform, htok]

theorem unregister_keyMap (w : World) (hk : Hotkey) (r : Except String Unit)
    (out : Except String Unit × World × Hotkey)
    (h : Unregister w hk r = some out) : out.2.1.keyMap = w.keyMap := by
  unfold Unregister at h
  split at h
  case _ e w1 hk1 heq =>
    cases h
    have := unregisterPlatform_keyMap w hk r
    rw [heq] at this
    exact this
  case _ u w1 hk1 heq =>
    have k0 : w1.keyMap = w.keyMap := by
      have := unregisterPlatform_keyMap w hk r
      rw [heq] at this
      exact this
    split at h
    · cases h
    case _ w2 heq2 =>
      split at h
      · cases h
      case _ w3 heq3 =>
        cases h
        have k1 : w2.keyMap = w1.keyMap := closeChan_keyMap heq2
        have k2 : w3.keyMap = w2.keyMap := closeChan_keyMap heq3
        simp [World.newEventChan, k0, k1, k2]

theorem finalize_keyMap (w : World) (hk : Hotkey) (r : Except String Unit)
    (w2 : World) (h : finalizeHotkey w hk r = some w2) :
    w2.keyMap = w.keyMap := by
  unfold finalizeHotkey at h
  dsimp only at h
  split at h
  · cases h
  case _ wa heq =>
    have k0 := unregisterPlatform_keyMap w hk r
    have k1 : wa.keyMap = (unregisterPlatform w hk r).2.1.keyMap :=
      closeChan_keyMap heq
    have k2 : w2.keyMap = wa.keyMap := closeChan_keyMap h
    rw [k2, k1, k0]

/-- Claim C10: the key-name lookup table is read-only state: it is `KeyMap` at
startup, none of the package operations (`New`, `Register`, `Unregister`,
the finalizer, channel allocation) changes any entry of it, and looking up a
name depends only on the table, so the same name always yields the same key
identifier. -/
theorem keymap_readonly (w : World) (mods : List Modifier) (key : Key)
    (hk : Hotkey) (resp : Except String ℕ) (r : Except String Unit)
    (s : String) :
    (New w mods key).1.keyMap = w.keyMap ∧
    (Register w hk resp).2.1.keyMap = w.keyMap ∧
    (∀ out, Unregister w hk r = some out → out.2.1.keyMap = w.keyMap) ∧
    (∀ w2, finalizeHotkey w hk r = some w2 → w2.keyMap = w.keyMap) ∧
    (w.newEventChan.2.keyMap = w.keyMap) ∧
    World.start.keyMap = KeyMap ∧
    (∀ w2 : World, w.keyMap = w2.keyMap → w.lookupKey s = w2.lookupKey s) := by
  refine ⟨?_, ?_, ?_, ?_, rfl, rfl, ?_⟩
  · simp [New, World.newEventChan]
  · rcases resp with e | tok <;> rcases htok : hk.token with - | t <;>
      simp [Register, registerPlatform, htok]
  · intro out h
    exact unregister_keyMap w hk r out h
  · intro w2 h
    exact finalize_keyMap w hk r w2 h
  · intro w2 h
    simp [World.lookupKey, h]

theorem keymap_readonly_witness :
    (New World.start [] KeyA).1.keyMap = World.start.keyMap :=
  (keymap_readonly World.start [] KeyA ⟨none, [], KeyA, 0, 0, 1, 1⟩
    (Except.ok 1) (Except.ok ()) "KeyA").1

end GoHotkey
